import Mathlib

/-!
Verification of the relay correlation engine of `bridge-discord-bot`.

The Go source keeps three durable SQLite relations — `links`, `messages`,
`authors` — and a process-local echo-suppression cache (`sync.Map`).  We embed
each relation as a Lean list of rows kept in insertion (rowid) order, which is
the order an un-`ORDER BY`-ed SQLite table scan yields rows in; `QueryRow`
corresponds to taking the head of the result list, and `INSERT OR IGNORE` to
an insert that is a no-op when a row with the same primary key already exists.
External collaborators (the Discord REST API, webhook sends, attachment
downloads) are modelled as explicit function parameters.
-/

namespace BridgeBot

/-- Row of the `links` table: `(virtual_channel_key, channel_id, note)`,
primary key `(virtual_channel_key, channel_id)`.  See
`internal/repository/links.go` `CreateLinksTable`. -/
structure LinkRow where
  key : String
  channel : Nat
  note : String
deriving DecidableEq, Repr

/-- Row of the `messages` table:
`(original_channel_id, original_message_id, hook_channel_id, hook_message_id)`,
primary key the full 4-tuple.  See `internal/repository/messages.go`
`CreateMessagesTable`. -/
structure MessageRow where
  origChannel : Nat
  origMsg : Nat
  hookChannel : Nat
  hookMsg : Nat
deriving DecidableEq, Repr

/-- Row of the `authors` table: `(username, id)`, primary key the pair.
See `internal/repository/authors.go` `CreateAuthorsTable`. -/
structure AuthorRow where
  username : String
  id : Nat
deriving DecidableEq, Repr

/-- The three durable relations. -/
structure DB where
  links : List LinkRow
  messages : List MessageRow
  authors : List AuthorRow
deriving DecidableEq, Repr

/-- `BuildInsertLinkQuery` (`dbqueries`, also `buildInsertLinkQuery` in the
historical `sql.go`): `INSERT OR IGNORE INTO links (virtual_channel_key,
channel_id, note) VALUES (?, ?, ?)`.  The insert is ignored exactly when a row
with the same primary key `(virtual_channel_key, channel_id)` exists. -/
def insertLink (links : List LinkRow) (key : String) (channel : Nat) (note : String) :
    List LinkRow :=
  if links.any (fun r => decide (r.key = key ∧ r.channel = channel)) then links
  else links ++ [⟨key, channel, note⟩]

/-- `BuildDeleteLinkQuery`: `DELETE FROM links WHERE virtual_channel_key = ?
AND channel_id = ?`.  Returns the remaining rows together with the affected
row count reported by `RowsAffected`. -/
def deleteLink (links : List LinkRow) (key : String) (channel : Nat) :
    List LinkRow × Nat :=
  (links.filter (fun r => !(decide (r.key = key ∧ r.channel = channel))),
   links.countP (fun r => decide (r.key = key ∧ r.channel = channel)))

/-- `LoadRelatedChannels` (`internal/repository/links.go`, also
`loadRelatedChannels` in `sql.go`):
`SELECT channel_id FROM links WHERE virtual_channel_key IN
(SELECT virtual_channel_key FROM links WHERE channel_id = ?) AND
channel_id <> ?`.  The outer query has no `DISTINCT`, so it yields one output
row per matching stored row, in table order. -/
def loadRelatedChannels (links : List LinkRow) (channelID : Nat) : List Nat :=
  let keys := (links.filter (fun r => decide (r.channel = channelID))).map (·.key)
  (links.filter (fun r => keys.contains r.key && decide (r.channel ≠ channelID))).map
    (·.channel)

/-- `SaveMessageMapping` (`internal/repository/messages.go`):
`INSERT OR IGNORE INTO messages ...`, primary key the full 4-tuple. -/
def saveMessageMapping (msgs : List MessageRow) (oc om hc hm : Nat) : List MessageRow :=
  if msgs.any (fun r =>
      decide (r.origChannel = oc ∧ r.origMsg = om ∧ r.hookChannel = hc ∧ r.hookMsg = hm))
  then msgs
  else msgs ++ [⟨oc, om, hc, hm⟩]

/-- `LoadRelatedMessageID` (`internal/repository/messages.go`):
`SELECT hook_message_id FROM messages WHERE hook_channel_id = ? AND
original_message_id = ?`, read through `QueryRow` (first result row, `none`
models `sql.ErrNoRows`).  Note the query does not constrain
`original_channel_id`. -/
def loadRelatedMessageID (msgs : List MessageRow) (targetChannelID messageRef : Nat) :
    Option Nat :=
  (msgs.find? (fun r =>
      decide (r.hookChannel = targetChannelID ∧ r.origMsg = messageRef))).map (·.hookMsg)

/-- `LoadDirelatedMessageID` (`internal/repository/messages.go`): the `UNION`
of `SELECT original_message_id ... WHERE original_channel_id = ? AND
hook_message_id = ?` and `SELECT hook_message_id ... WHERE hook_channel_id = ?
AND original_message_id = ?`, read through `QueryRow`.  The relative order of
rows produced by a SQL `UNION` is unspecified; the theorems below only invoke
this definition in states where the union has at most one result row, so the
choice of listing the left operand's rows first is immaterial. -/
def loadDirelatedMessageID (msgs : List MessageRow) (targetChannelID messageRef : Nat) :
    Option Nat :=
  let left := (msgs.filter (fun r =>
      decide (r.origChannel = targetChannelID ∧ r.hookMsg = messageRef))).map (·.origMsg)
  let right := (msgs.filter (fun r =>
      decide (r.hookChannel = targetChannelID ∧ r.origMsg = messageRef))).map (·.hookMsg)
  (left ++ right).head?

/-- `SaveAuthorMapping` (`internal/repository/authors.go`):
`INSERT OR IGNORE INTO authors (username, id) VALUES (?, ?)`, primary key
`(username, id)`. -/
def saveAuthorMapping (authors : List AuthorRow) (username : String) (id : Nat) :
    List AuthorRow :=
  if authors.any (fun r => decide (r.username = username ∧ r.id = id)) then authors
  else authors ++ [⟨username, id⟩]

/-- `LoadAuthorID` (`internal/repository/authors.go`):
`SELECT id FROM authors WHERE username = ?`, read through `QueryRow`.  SQLite
answers this query from the `(username, id)` primary-key covering index
(`SEARCH authors USING COVERING INDEX ... (username=?)`), so the rows for a
username arrive in ascending id order and `QueryRow` yields the smallest id
recorded for that name; `none` models `sql.ErrNoRows`. -/
def loadAuthorID (authors : List AuthorRow) (username : String) : Option Nat :=
  ((authors.filter (fun r => decide (r.username = username))).map (·.id)).min?

/-! ## Echo suppression cache

`EventHandler.recentDelCache` is a `sync.Map` used as a set of message ids.
We model its key set as a list: `Store(id, nil)` conses the key on, and
`LoadAndDelete(id)` reports membership and removes the key. -/

/-- `recentDelCache.Store(messageID, nil)` — mark a message id as deleted by
the engine itself (called after a successful webhook delete). -/
def markSelfDeleted (cache : List Nat) (x : Nat) : List Nat :=
  x :: cache

/-- `recentDelCache.LoadAndDelete(messageID)` — atomically report whether the
id is present and remove it. -/
def consumeIfSelfDeleted (cache : List Nat) (x : Nat) : Bool × List Nat :=
  (cache.contains x, cache.filter (fun y => y != x))

/-! ## Text helpers (`internal/texts`, also lower-case copies in `sql.go`)

Go strings are modelled as `List Char` (Unicode scalar values).  Every byte
index the source manipulates (`NthRune`'s result, `strings.LastIndexFunc`'s
result, slice bounds) is a rune boundary, so scalar indices are a faithful
rendering of the byte indices used by the Go code. -/

/-- `texts.NthRune(s, n)`: iterate over the rune start indices of `s`; when
the running rune count reaches `n` return that index, otherwise return
`len(s)`. -/
def nthRune : List Char → Nat → Nat
  | [], _ => 0
  | _ :: _, 0 => 0
  | _ :: cs, n + 1 => nthRune cs n + 1

/-- `unicode.IsSpace`: the Unicode `White_Space` code points, exactly as in
Go's `unicode` tables (Latin-1 cases plus the higher `White_Space` ranges). -/
def isSpace (c : Char) : Bool :=
  decide (c = '\t' ∨ c = '\n' ∨ c.toNat = 11 ∨ c.toNat = 12 ∨ c = '\r' ∨ c = ' ' ∨
    c.toNat = 0x85 ∨ c.toNat = 0xA0 ∨ c.toNat = 0x1680 ∨
    (0x2000 ≤ c.toNat ∧ c.toNat ≤ 0x200A) ∨ c.toNat = 0x2028 ∨ c.toNat = 0x2029 ∨
    c.toNat = 0x202F ∨ c.toNat = 0x205F ∨ c.toNat = 0x3000)

/-- `strings.LastIndexFunc(s, f)`: the index of the last rune satisfying `f`,
or `-1` when none does. -/
def lastIndexFunc (s : List Char) (f : Char → Bool) : Int :=
  go 0 (-1) s
where
  go (i : Nat) (acc : Int) : List Char → Int
    | [] => acc
    | c :: cs => go (i + 1) (if f c then (i : Int) else acc) cs

/-- The visual truncation indicator appended by `tryWriteReferenceHeader`. -/
def cutIndicator : String := " **. . .**"

/-- The truncation step of `tryWriteReferenceHeader`
(`internal/handler/handler.go`), applied to the preview after header
stripping and before the final trailing-whitespace trim: cap the preview at
128 runes; if that cuts something off, set the indicator, and trim back to
the last whitespace position when there is one at a positive index.  Returns
the preview together with the `cutIndicator` string that will follow it. -/
def truncatePreview (s : List Char) : List Char × String :=
  let window := nthRune s 128
  if window < s.length then
    let t := s.take window
    let lastSpace := lastIndexFunc t isSpace
    (if 0 < lastSpace then t.take lastSpace.toNat else t, cutIndicator)
  else (s, "")

/-! ## Slash commands (`internal/handler/handler.go`)

`onCommandInteractionCreateLink` hashes the user-supplied label with SHA-256
and stores the lowercase hex digest as the link key;
`onCommandInteractionCreateUnlink` passes the raw label to the delete query.
SHA-256 itself is an external library call (`crypto/sha256`); it is modelled
as a function parameter producing the 32-byte digest. -/

/-- `hex.EncodeToString`, one byte: the two lowercase hex digits. -/
def hexDigits (b : Nat) : List Char :=
  [(String.toList "0123456789abcdef").getD (b / 16 % 16) '0',
   (String.toList "0123456789abcdef").getD (b % 16) '0']

/-- `hex.EncodeToString` over a byte slice. -/
def hexEncode : List Nat → List Char
  | [] => []
  | b :: bs => hexDigits b ++ hexEncode bs

/-- The `/link` command body (`onCommandInteractionCreateLink`): hash the
label, hex-encode the digest, and run the idempotent insert.  `sha256Sum`
stands for `sha256.Sum256`, whose digests are 32 bytes long. -/
def onLinkCommand (sha256Sum : String → List Nat) (links : List LinkRow)
    (label : String) (channelID : Nat) (note : String) : List LinkRow :=
  insertLink links (String.mk (hexEncode (sha256Sum label))) channelID note

/-- Outcome reported to the user by the `/unlink` command. -/
inductive UnlinkOutcome where
  | notFound
  | success (rowsAffected : Nat)
deriving DecidableEq, Repr

/-- The `/unlink` command body (`onCommandInteractionCreateUnlink`): delete by
the raw label (the label is not hashed here) and report not-found exactly when
`RowsAffected` is zero. -/
def onUnlinkCommand (links : List LinkRow) (label : String) (channelID : Nat) :
    List LinkRow × UnlinkOutcome :=
  let res := deleteLink links label channelID
  (res.1, if res.2 = 0 then UnlinkOutcome.notFound else UnlinkOutcome.success res.2)

/-! ## Gateway event handlers (`internal/handler/handler.go`)

The handlers call out to the Discord REST API.  Those collaborators are
passed in as an `Externals` record: `getWebhook` is the outcome of
`loadOrCreateWebhook` for a target channel (`none` = error, logged and the
target skipped); `createMessage` is the outcome of the webhook send for a
target (`none` = error); `deleteMessage` reports whether the webhook delete of
a given copy id succeeded; `headerFor` is the per-target text contributed by
`tryWriteReferenceHeader` (possibly empty, also when that call errors — the
handler only logs the error and keeps going); `footer` and `fileAttachCount`
are the outcome of `processMessageAttachments` (URL footer for oversized
attachments, count of downloaded reattachments). -/
structure Externals where
  getWebhook : Nat → Option Nat
  createMessage : Nat → Option (Nat × Nat)
  deleteMessage : Nat → Bool
  headerFor : Nat → String
  footer : String
  fileAttachCount : Nat

/-- The fields of an inbound gateway message event that the handlers read. -/
structure MsgEvent where
  authorBot : Bool
  authorName : String
  authorID : Nat
  channelID : Nat
  messageID : Nat
  content : String
deriving DecidableEq, Repr

/-- The per-target loop of `OnGuildMessageCreate`.  Accumulates the `messages`
rows written into the open transaction and the list of targets a webhook send
was issued to.  When the send fails, the Go code logs the error and then
dereferences the nil `webhookMessage` in the `SaveMessageMapping` call — a
runtime panic that unwinds out of the loop (final `Bool` = panicked). -/
def relayTargets (ext : Externals) (e : MsgEvent) :
    List Nat → List MessageRow → List Nat → List MessageRow × List Nat × Bool
  | [], rows, sends => (rows, sends, false)
  | t :: ts, rows, sends =>
    match ext.getWebhook t with
    | none => relayTargets ext e ts rows sends
    | some _ =>
      let content := ext.headerFor t ++ e.content ++ ext.footer
      if content.length = 0 ∧ ext.fileAttachCount = 0 then
        relayTargets ext e ts rows sends
      else
        match ext.createMessage t with
        | none => (rows, sends ++ [t], true)
        | some (hc, hm) =>
          relayTargets ext e ts (saveMessageMapping rows e.channelID e.messageID hc hm)
            (sends ++ [t])

/-- `OnGuildMessageCreate`: ignore bot authors; load the fan-out targets; open
a transaction, record the author mapping, run the per-target relay loop, and
commit.  A panic in the loop triggers the deferred `tx.Rollback`, so nothing
is committed.  Returns the committed database, the targets a send was issued
to, and whether the handler panicked. -/
def onGuildMessageCreate (ext : Externals) (e : MsgEvent) (db : DB) :
    DB × List Nat × Bool :=
  if e.authorBot then (db, [], false)
  else
    let targets := loadRelatedChannels db.links e.channelID
    let txAuthors := saveAuthorMapping db.authors e.authorName e.authorID
    let res := relayTargets ext e targets db.messages []
    if res.2.2 then (db, res.2.1, true)
    else ({ db with authors := txAuthors, messages := res.1 }, res.2.1, false)

/-- The per-target loop of `OnGuildMessageUpdate`: skip targets with no known
copy or no webhook, otherwise issue an edit of the copy with the rebuilt
content.  Returns the issued edits as `(target, copy id, content)`. -/
def updateTargets (ext : Externals) (e : MsgEvent) (db : DB) :
    List Nat → List (Nat × Nat × String) → List (Nat × Nat × String)
  | [], edits => edits
  | t :: ts, edits =>
    match loadRelatedMessageID db.messages t e.messageID with
    | none => updateTargets ext e db ts edits
    | some rel =>
      match ext.getWebhook t with
      | none => updateTargets ext e db ts edits
      | some _ =>
        updateTargets ext e db ts
          (edits ++ [(t, rel, ext.headerFor t ++ e.content ++ ext.footer)])

/-- `OnGuildMessageUpdate`: ignore bot authors; for each fan-out target edit
the previously relayed copy.  The handler writes no database rows; it returns
the list of issued edits. -/
def onGuildMessageUpdate (ext : Externals) (e : MsgEvent) (db : DB) :
    List (Nat × Nat × String) :=
  if e.authorBot then []
  else updateTargets ext e db (loadRelatedChannels db.links e.channelID) []

/-- The per-target loop of `OnGuildMessageDelete`: skip targets with no known
copy or no webhook; on a successful webhook delete, mark the deleted copy id
in the echo-suppression cache.  Returns the cache and the deleted copy ids. -/
def deleteTargets (ext : Externals) (e : MsgEvent) (db : DB) :
    List Nat → List Nat → List Nat → List Nat × List Nat
  | [], cache, dels => (cache, dels)
  | t :: ts, cache, dels =>
    match loadRelatedMessageID db.messages t e.messageID with
    | none => deleteTargets ext e db ts cache dels
    | some rel =>
      match ext.getWebhook t with
      | none => deleteTargets ext e db ts cache dels
      | some _ =>
        if ext.deleteMessage rel then
          deleteTargets ext e db ts (markSelfDeleted cache rel) (dels ++ [rel])
        else deleteTargets ext e db ts cache dels

/-- `OnGuildMessageDelete`: ignore bot authors; consume the echo-suppression
entry and stop if the delete was self-caused; otherwise delete each fan-out
copy.  Returns the new cache and the deleted copy ids. -/
def onGuildMessageDelete (ext : Externals) (e : MsgEvent) (db : DB)
    (cache : List Nat) : List Nat × List Nat :=
  if e.authorBot then (cache, [])
  else
    let consumed := consumeIfSelfDeleted cache e.messageID
    if consumed.1 then (consumed.2, [])
    else deleteTargets ext e db (loadRelatedChannels db.links e.channelID) consumed.2 []

/-! ## Concrete inputs used by evaluation and witness theorems -/

/-- Externals for the C4 failing scenario: webhooks resolve everywhere, the
send to channel 2 fails, the send to channel 3 would succeed. -/
def ext4 : Externals :=
  ⟨fun _ => some 0, fun t => if t = 2 then none else some (t, 777),
   fun _ => true, fun _ => "", "", 0⟩

/-- A non-bot message in channel 1 with nonempty content. -/
def ev4 : MsgEvent := ⟨false, "u", 5, 1, 100, "hi"⟩

/-- Channels 1, 2, 3 all linked under one group; no prior messages/authors. -/
def db4 : DB := ⟨[⟨"g", 1, ""⟩, ⟨"g", 2, ""⟩, ⟨"g", 3, ""⟩], [], []⟩

/-- Externals where every external call fails (never reached in bot cases). -/
def extTriv : Externals := ⟨fun _ => none, fun _ => none, fun _ => false, fun _ => "", "", 0⟩

/-- A message event authored by a bot account. -/
def evBot : MsgEvent := ⟨true, "bot", 9, 1, 100, "x"⟩

/-- An empty database. -/
def dbEmpty : DB := ⟨[], [], []⟩

/-! ## Helper lemmas -/

/-- `hexEncode` yields two characters per byte. -/
theorem hexEncode_length (bs : List Nat) : (hexEncode bs).length = 2 * bs.length := by
  induction bs with
  | nil => rfl
  | cons b bs ih => simp [hexEncode, hexDigits, ih]; ring

/-- The ids recorded for a username after one `saveAuthorMapping` of a not yet
recorded id: the new id is appended to the username's id list. -/
theorem idsOf_save (acc : List AuthorRow) (u : String) (j : Nat)
    (h : j ∉ (acc.filter (fun r => decide (r.username = u))).map (·.id)) :
    ((saveAuthorMapping acc u j).filter (fun r => decide (r.username = u))).map (·.id) =
      (acc.filter (fun r => decide (r.username = u))).map (·.id) ++ [j] := by
  have hany : acc.any (fun r => decide (r.username = u ∧ r.id = j)) = false := by
    rw [List.any_eq_false]
    intro r hr hpr
    have hp := of_decide_eq_true hpr
    exact h (List.mem_map.2 ⟨r, List.mem_filter.2 ⟨hr, by simp [hp.1]⟩, hp.2⟩)
  unfold saveAuthorMapping
  rw [if_neg (by rw [hany]; exact Bool.false_ne_true)]
  rw [List.filter_append, List.map_append]
  congr 1
  simp

/-- The ids recorded for a username after a sequence of `saveAuthorMapping`
writes of fresh, pairwise distinct ids: the writes append in order. -/
theorem idsOf_foldl_save (u : String) :
    ∀ (js : List Nat) (acc : List AuthorRow) (L : List Nat),
      (acc.filter (fun r => decide (r.username = u))).map (·.id) = L →
      (∀ j ∈ js, j ∉ L) → js.Nodup →
      ((js.foldl (fun a j => saveAuthorMapping a u j) acc).filter
          (fun r => decide (r.username = u))).map (·.id) = L ++ js := by
  intro js
  induction js with
  | nil =>
    intro acc L hL _ _
    simpa using hL
  | cons j js ih =>
    intro acc L hL hnotin hnodup
    have hj : j ∉ L := hnotin j (List.mem_cons_self j js)
    have hsave := idsOf_save acc u j (by rw [hL]; exact hj)
    rw [hL] at hsave
    have hnd := List.nodup_cons.1 hnodup
    have hres := ih (saveAuthorMapping acc u j) (L ++ [j]) hsave
      (by
        intro x hx
        rw [List.mem_append]
        rintro (hxL | hxj)
        · exact hnotin x (List.mem_cons_of_mem j hx) hxL
        · rw [List.mem_singleton] at hxj
          exact hnd.1 (hxj ▸ hx))
      hnd.2
    show ((js.foldl (fun a j => saveAuthorMapping a u j)
        (saveAuthorMapping acc u j)).filter
          (fun r => decide (r.username = u))).map (·.id) = L ++ j :: js
    rw [hres, List.append_assoc, List.singleton_append]

/-! ## Claims -/

/-- C1: the claim says `FanOutTargets(c)` (`LoadRelatedChannels`) returns each
other channel sharing a group with `c` exactly once.  The query has no
`DISTINCT`: with channels 1 and 2 sharing the two groups `g1` and `g2`,
channel 2 is returned twice, so a message in channel 1 would be relayed twice
into channel 2.  This theorem evaluates the code at that failing input. -/
theorem C1_fanout_duplicate_target :
    loadRelatedChannels [⟨"g1", 1, ""⟩, ⟨"g1", 2, ""⟩, ⟨"g2", 1, ""⟩, ⟨"g2", 2, ""⟩] 1 =
      [2, 2] ∧
    (loadRelatedChannels [⟨"g1", 1, ""⟩, ⟨"g1", 2, ""⟩, ⟨"g2", 1, ""⟩, ⟨"g2", 2, ""⟩] 1).count 2 ≠
      1 := by
  decide

/-- C2, counterexample: with source message 100 in channel 10 relayed as copy
200 into channel 20 and copy 300 into channel 30, resolving from copy 200
toward channel 30 (and from copy 300 toward channel 20) finds nothing — the
`UNION` in `LoadDirelatedMessageID` never recovers the source from the
copy-side and re-queries: `QueryRow` reports no rows, not the sibling copy the
claim demands. -/
theorem C2_copy_to_copy_counterexample :
    loadDirelatedMessageID [⟨10, 100, 20, 200⟩, ⟨10, 100, 30, 300⟩] 30 200 = none ∧
    loadDirelatedMessageID [⟨10, 100, 20, 200⟩, ⟨10, 100, 30, 300⟩] 30 200 ≠ some 300 ∧
    loadDirelatedMessageID [⟨10, 100, 20, 200⟩, ⟨10, 100, 30, 300⟩] 20 300 = none ∧
    loadDirelatedMessageID [⟨10, 100, 20, 200⟩, ⟨10, 100, 30, 300⟩] 20 300 ≠ some 200 := by
  decide

/-- C2, amended: for a correlation class with source `S` in channel `s` and
copies `c1` in channel `A`, `c2` in channel `B` (all ids and channels
distinct), `LoadDirelatedMessageID` resolves from the source to either copy
and from either copy back to the source id when the target is the source's
own channel, but resolving from one copy toward the other copy's channel
returns not-found. -/
theorem C2_resolution_amended (s S A B c1 c2 : Nat)
    (hsA : s ≠ A) (hsB : s ≠ B) (hAB : A ≠ B)
    (hc : c1 ≠ c2) (hS1 : S ≠ c1) (hS2 : S ≠ c2) :
    loadDirelatedMessageID [⟨s, S, A, c1⟩, ⟨s, S, B, c2⟩] A S = some c1 ∧
    loadDirelatedMessageID [⟨s, S, A, c1⟩, ⟨s, S, B, c2⟩] B S = some c2 ∧
    loadDirelatedMessageID [⟨s, S, A, c1⟩, ⟨s, S, B, c2⟩] s c1 = some S ∧
    loadDirelatedMessageID [⟨s, S, A, c1⟩, ⟨s, S, B, c2⟩] s c2 = some S ∧
    loadDirelatedMessageID [⟨s, S, A, c1⟩, ⟨s, S, B, c2⟩] B c1 = none ∧
    loadDirelatedMessageID [⟨s, S, A, c1⟩, ⟨s, S, B, c2⟩] A c2 = none := by
  refine ⟨?_, ?_, ?_, ?_, ?_, ?_⟩ <;>
    simp [loadDirelatedMessageID, hsA, hsB, hAB, hc, hS1, hS2,
      Ne.symm hsA, Ne.symm hsB, Ne.symm hAB, Ne.symm hc, Ne.symm hS1, Ne.symm hS2]

/-- C2, amended, witness at a concrete class. -/
theorem C2_resolution_amended_witness :
    loadDirelatedMessageID [⟨10, 100, 20, 200⟩, ⟨10, 100, 30, 300⟩] 20 100 = some 200 ∧
    loadDirelatedMessageID [⟨10, 100, 20, 200⟩, ⟨10, 100, 30, 300⟩] 30 100 = some 300 ∧
    loadDirelatedMessageID [⟨10, 100, 20, 200⟩, ⟨10, 100, 30, 300⟩] 10 200 = some 100 ∧
    loadDirelatedMessageID [⟨10, 100, 20, 200⟩, ⟨10, 100, 30, 300⟩] 10 300 = some 100 ∧
    loadDirelatedMessageID [⟨10, 100, 20, 200⟩, ⟨10, 100, 30, 300⟩] 30 200 = none ∧
    loadDirelatedMessageID [⟨10, 100, 20, 200⟩, ⟨10, 100, 30, 300⟩] 20 300 = none :=
  C2_resolution_amended 10 100 20 30 200 300 (by decide) (by decide) (by decide)
    (by decide) (by decide) (by decide)

/-- C3: the claim says that after `/link` with label L succeeds, `/unlink`
with the same label L in the same channel removes the row and reports
success.  The code hashes the label on link (`hex(sha256(L))` becomes the
stored key, a 64-character string) but deletes by the raw label on unlink, so
the delete matches nothing and the user gets the not-found outcome.  This
theorem evaluates the code at the failing input `L = "a"`, for every possible
32-byte digest the external hash may produce. -/
theorem C3_unlink_after_link_not_found (sha256Sum : String → List Nat)
    (hlen : (sha256Sum "a").length = 32) (c : Nat) (note : String) :
    (onUnlinkCommand (onLinkCommand sha256Sum [] "a" c note) "a" c).2 =
      UnlinkOutcome.notFound := by
  have hkey : String.mk (hexEncode (sha256Sum "a")) ≠ "a" := by
    intro h
    have hl := congrArg String.length h
    rw [String.length] at hl
    simp [hexEncode_length, hlen] at hl
    exact absurd hl (by decide)
  simp [onUnlinkCommand, onLinkCommand, insertLink, deleteLink, hkey]

/-- C3, witness: a concrete 32-byte digest function. -/
theorem C3_unlink_after_link_not_found_witness :
    ((fun _ : String => List.replicate 32 0) "a").length = 32 ∧
    (onUnlinkCommand
        (onLinkCommand (fun _ : String => List.replicate 32 0) [] "a" 1 "") "a" 1).2 =
      UnlinkOutcome.notFound :=
  ⟨by decide,
   C3_unlink_after_link_not_found (fun _ : String => List.replicate 32 0) (by decide) 1 ""⟩

/-- C5: recording a correlation row and finding the copy round-trip.  If the
store has no row matching `(m1, t)` (the pair `FindCopy` actually filters on),
then after `RecordCorrelation(s1, m1, t, m2)` the lookup returns `m2`, and on
the unrecorded store it returns not-found. -/
theorem C5_record_find_roundtrip (msgs : List MessageRow) (s1 m1 t m2 : Nat)
    (h : ∀ r ∈ msgs, ¬(r.hookChannel = t ∧ r.origMsg = m1)) :
    loadRelatedMessageID (saveMessageMapping msgs s1 m1 t m2) t m1 = some m2 ∧
    loadRelatedMessageID msgs t m1 = none := by
  have hnone : msgs.find? (fun r => decide (r.hookChannel = t ∧ r.origMsg = m1)) = none :=
    List.find?_eq_none.2 (by intro r hr; simpa using h r hr)
  constructor
  · have hadd : saveMessageMapping msgs s1 m1 t m2 = msgs ++ [⟨s1, m1, t, m2⟩] := by
      unfold saveMessageMapping
      rw [if_neg]
      intro hany
      rcases List.any_eq_true.1 hany with ⟨r, hr, hpr⟩
      have hp := of_decide_eq_true hpr
      exact h r hr ⟨hp.2.2.1, hp.2.1⟩
    rw [hadd]
    unfold loadRelatedMessageID
    rw [List.find?_append, hnone]
    simp
  · unfold loadRelatedMessageID
    rw [hnone]
    rfl

/-- C5, witness. -/
theorem C5_record_find_roundtrip_witness :
    loadRelatedMessageID (saveMessageMapping [] 1 100 2 200) 2 100 = some 200 ∧
    loadRelatedMessageID [] 2 100 = none :=
  C5_record_find_roundtrip [] 1 100 2 200 (by intro r hr; cases hr)

/-- C6: after `MarkSelfDeleted(x)`, the first `ConsumeIfSelfDeleted(x)`
returns true, and a second call with no intervening mark returns false — the
self-caused delete notification is suppressed exactly once. -/
theorem C6_echo_suppressed_once (cache : List Nat) (x : Nat) :
    (consumeIfSelfDeleted (markSelfDeleted cache x) x).1 = true ∧
    (consumeIfSelfDeleted (consumeIfSelfDeleted (markSelfDeleted cache x) x).2 x).1 =
      false := by
  constructor
  · simp [markSelfDeleted, consumeIfSelfDeleted]
  · simp [markSelfDeleted, consumeIfSelfDeleted, List.contains]

/-- C8: `AddLink` is idempotent.  From a store with no row for the pair
`(k, c)`, inserting twice with identical arguments is the same as inserting
once (the second insert is an ignored no-op, not an error), and exactly one
row for `(k, c)` is present afterwards. -/
theorem C8_addlink_idempotent (links : List LinkRow) (k : String) (c : Nat) (n : String)
    (h : ∀ r ∈ links, ¬(r.key = k ∧ r.channel = c)) :
    insertLink (insertLink links k c n) k c n = insertLink links k c n ∧
    (insertLink links k c n).countP (fun r => decide (r.key = k ∧ r.channel = c)) = 1 := by
  have hany : links.any (fun r => decide (r.key = k ∧ r.channel = c)) = false := by
    rw [List.any_eq_false]
    intro r hr
    simpa using h r hr
  have hadd : insertLink links k c n = links ++ [⟨k, c, n⟩] := by
    unfold insertLink
    rw [hany]
    rfl
  constructor
  · rw [hadd]
    unfold insertLink
    rw [if_pos]
    rw [List.any_append]
    simp
  · rw [hadd, List.countP_append]
    have hz : links.countP (fun r => decide (r.key = k ∧ r.channel = c)) = 0 := by
      rw [List.countP_eq_zero]
      intro r hr
      simpa using h r hr
    rw [hz]
    simp

/-- C8, witness. -/
theorem C8_addlink_idempotent_witness :
    insertLink (insertLink [] "g" 1 "note") "g" 1 "note" = insertLink [] "g" 1 "note" ∧
    (insertLink [] "g" 1 "note").countP
      (fun r => decide (r.key = "g" ∧ r.channel = 1)) = 1 :=
  C8_addlink_idempotent [] "g" 1 "note" (by intro r hr; cases hr)

/-- C9, counterexample: recording display name "alice" first as id 1 and then
as id 2, the lookup returns the FIRST matching row of the un-ordered scan —
id 1, the earliest recorded id — not id 2, the most recently recorded id the
claim demands. -/
theorem C9_latest_id_counterexample :
    loadAuthorID (saveAuthorMapping (saveAuthorMapping [] "alice" 1) "alice" 2) "alice" =
      some 1 ∧
    loadAuthorID (saveAuthorMapping (saveAuthorMapping [] "alice" 1) "alice" 2) "alice" ≠
      some 2 := by
  decide

/-- C9, amended: for a display name recorded with two or more distinct ids
over time, `LoadAuthorID` returns the SMALLEST id recorded for that name —
the query is served from the `(username, id)` primary-key covering index,
which yields rows in ascending id order — regardless of the order the ids
were recorded in. -/
theorem C9_smallest_id_amended (authors : List AuthorRow) (u : String) (i : Nat)
    (js : List Nat) (hfresh : ∀ r ∈ authors, r.username ≠ u)
    (hnodup : (i :: js).Nodup) :
    loadAuthorID
      (js.foldl (fun a j => saveAuthorMapping a u j) (saveAuthorMapping authors u i)) u =
      some (js.foldl min i) := by
  have hempty : (authors.filter (fun r => decide (r.username = u))).map (·.id) = [] := by
    have hf : authors.filter (fun r => decide (r.username = u)) = [] := by
      rw [List.filter_eq_nil_iff]
      intro r hr
      simpa using hfresh r hr
    rw [hf]
    rfl
  have hstart := idsOf_save authors u i (by rw [hempty]; exact List.not_mem_nil i)
  rw [hempty, List.nil_append] at hstart
  have hnd := List.nodup_cons.1 hnodup
  have hfinal := idsOf_foldl_save u js (saveAuthorMapping authors u i) [i] hstart
    (by
      intro x hx
      rw [List.mem_singleton]
      intro hxi
      exact hnd.1 (hxi ▸ hx))
    hnd.2
  unfold loadAuthorID
  rw [hfinal, List.singleton_append]
  rfl

/-- C9, amended, witness: "alice" recorded first as id 5 and then as id 2;
the lookup returns 2, the smaller and later-recorded id. -/
theorem C9_smallest_id_amended_witness :
    loadAuthorID
      ([2].foldl (fun a j => saveAuthorMapping a "alice" j)
        (saveAuthorMapping [] "alice" 5)) "alice" = some 2 := by
  have h := C9_smallest_id_amended [] "alice" 5 [2] (by intro r hr; cases hr) (by decide)
  rw [h]
  decide

/-- C10: every handler checks `e.Message.Author.Bot` first and returns
immediately for any bot author: the create handler leaves the database
unchanged and attempts no send, the update handler issues no edits, and the
delete handler leaves the cache unchanged and issues no deletes. -/
theorem C10_bot_events_ignored (ext : Externals) (e : MsgEvent) (db : DB)
    (cache : List Nat) (h : e.authorBot = true) :
    onGuildMessageCreate ext e db = (db, [], false) ∧
    onGuildMessageUpdate ext e db = [] ∧
    onGuildMessageDelete ext e db cache = (cache, []) := by
  refine ⟨?_, ?_, ?_⟩ <;>
    simp [onGuildMessageCreate, onGuildMessageUpdate, onGuildMessageDelete, h]

/-- C10, witness. -/
theorem C10_bot_events_ignored_witness :
    onGuildMessageCreate extTriv evBot dbEmpty = (dbEmpty, [], false) ∧
    onGuildMessageUpdate extTriv evBot dbEmpty = [] ∧
    onGuildMessageDelete extTriv evBot dbEmpty [] = ([], []) :=
  C10_bot_events_ignored extTriv evBot dbEmpty [] rfl

/-- C4: the claim says a failed send to one target must not abort relay
processing for the remaining targets.  In the code, a failed webhook send is
only logged, after which `SaveMessageMapping` dereferences the nil
`webhookMessage` — a panic that aborts the loop and triggers the deferred
`tx.Rollback`.  Evaluated at the failing input (channels 1,2,3 in one group,
message posted in 1, send to 2 fails, send to 3 would succeed): the handler
panics after attempting only target 2, commits nothing, and target 3 never
receives its copy or its correlation row. -/
theorem C4_failed_send_aborts_siblings :
    onGuildMessageCreate ext4 ev4 db4 = (db4, [2], true) ∧
    (onGuildMessageCreate ext4 ev4 db4).1.messages = [] := by
  exact ⟨rfl, rfl⟩

/-! ## Lemmas for the truncation step -/

/-- `NthRune` returns the n-th rune index when it exists and the length
otherwise. -/
theorem nthRune_eq_min (s : List Char) (n : Nat) : nthRune s n = min n s.length := by
  induction s generalizing n with
  | nil => simp [nthRune]
  | cons c cs ih =>
    cases n with
    | zero => simp [nthRune]
    | succ n => simp [nthRune, ih, Nat.succ_min_succ]

/-- Unfolding equation for `LastIndexFunc`'s accumulator loop. -/
theorem lastIndexFunc_go_cons (f : Char → Bool) (c : Char) (cs : List Char) (i : Nat)
    (acc : Int) :
    lastIndexFunc.go f i acc (c :: cs) =
      lastIndexFunc.go f (i + 1) (if f c then (i : Int) else acc) cs := rfl

/-- `LastIndexFunc`'s accumulator loop leaves the accumulator untouched when
no rune satisfies the predicate. -/
theorem lastIndexFunc_go_all_false (f : Char → Bool) :
    ∀ (s : List Char) (i : Nat) (acc : Int), (∀ c ∈ s, f c = false) →
      lastIndexFunc.go f i acc s = acc := by
  intro s
  induction s with
  | nil => intro i acc _; rfl
  | cons c cs ih =>
    intro i acc h
    have hc : f c = false := h c (List.mem_cons_self c cs)
    show lastIndexFunc.go f (i + 1) (if f c then (i : Int) else acc) cs = acc
    rw [hc]
    simpa using ih (i + 1) acc (fun d hd => h d (List.mem_cons_of_mem c hd))

/-- `LastIndexFunc`'s accumulator loop returns `i + k` when position `k` is
the unique position satisfying the predicate. -/
theorem lastIndexFunc_go_unique (f : Char → Bool) :
    ∀ (s : List Char) (k : Nat), k < s.length → f (s.getD k 'a') = true →
      (∀ j, j < s.length → j ≠ k → f (s.getD j 'a') = false) →
      ∀ (i : Nat) (acc : Int), lastIndexFunc.go f i acc s = ((i + k : Nat) : Int) := by
  intro s
  induction s with
  | nil => intro k hk; simp at hk
  | cons c cs ih =>
    intro k hk hpk hothers i acc
    cases k with
    | zero =>
      have hc : f c = true := by simpa using hpk
      have hrest : ∀ d ∈ cs, f d = false := by
        intro d hd
        rcases List.mem_iff_getElem.1 hd with ⟨idx, hidx, hde⟩
        have hx := hothers (idx + 1) (by simpa using Nat.succ_lt_succ hidx)
          (Nat.succ_ne_zero idx)
        rw [List.getD_cons_succ, List.getD_eq_getElem?_getD,
          List.getElem?_eq_getElem hidx, Option.getD_some, hde] at hx
        exact hx
      rw [lastIndexFunc_go_cons, if_pos hc,
        lastIndexFunc_go_all_false f cs (i + 1) i hrest]
      simp
    | succ k =>
      have hc : f c = false := by
        have hx := hothers 0 (by simp) (Ne.symm (Nat.succ_ne_zero k))
        simpa using hx
      have hpk' : f (cs.getD k 'a') = true := by
        rw [List.getD_cons_succ] at hpk
        exact hpk
      have hothers' : ∀ j, j < cs.length → j ≠ k → f (cs.getD j 'a') = false := by
        intro j hj hjk
        have hx := hothers (j + 1) (by simpa using Nat.succ_lt_succ hj) (by omega)
        rw [List.getD_cons_succ] at hx
        exact hx
      have hk' : k < cs.length := by simpa using Nat.lt_of_succ_lt_succ hk
      rw [lastIndexFunc_go_cons, if_neg (by simp [hc]),
        ih k hk' hpk' hothers' (i + 1) acc]
      congr 1
      omega

/-- `LastIndexFunc` is `-1` when no rune satisfies the predicate. -/
theorem lastIndexFunc_all_false (s : List Char) (f : Char → Bool)
    (h : ∀ c ∈ s, f c = false) : lastIndexFunc s f = -1 :=
  lastIndexFunc_go_all_false f s 0 (-1) h

/-- `LastIndexFunc` finds the unique position satisfying the predicate. -/
theorem lastIndexFunc_unique (s : List Char) (f : Char → Bool) (k : Nat)
    (hk : k < s.length) (hpk : f (s.getD k 'a') = true)
    (hothers : ∀ j, j < s.length → j ≠ k → f (s.getD j 'a') = false) :
    lastIndexFunc s f = (k : Int) := by
  have hx := lastIndexFunc_go_unique f s k hk hpk hothers 0 (-1)
  simpa using hx

/-- `getD` on a prefix agrees with `getD` on the list. -/
theorem getD_take (s : List Char) (n j : Nat) (d : Char) (h : j < n) :
    (s.take n).getD j d = s.getD j d := by
  rw [List.getD_eq_getElem?_getD, List.getD_eq_getElem?_getD, List.getElem?_take,
    if_pos h]

/-- C7: the truncation step of the reply preview (after header stripping,
before the final trailing-whitespace trim).  (1) A 200-character plain-ASCII
body with no whitespace among its first 128 scalars truncates to exactly the
first 128 scalars with the indicator; (2) a 150-scalar body whose only
whitespace is a space at position 100 truncates back to position 100 with the
indicator; (3) a body of at most 128 scalars is left unmodified with no
indicator. -/
theorem C7_truncation_spec :
    (∀ s : List Char, s.length = 200 → (∀ c ∈ s, c.toNat < 128) →
      (∀ c ∈ s.take 128, isSpace c = false) →
      truncatePreview s = (s.take 128, cutIndicator)) ∧
    (∀ s : List Char, s.length = 150 → isSpace (s.getD 100 'a') = true →
      (∀ j, j < s.length → j ≠ 100 → isSpace (s.getD j 'a') = false) →
      truncatePreview s = (s.take 100, cutIndicator)) ∧
    (∀ s : List Char, s.length ≤ 128 → truncatePreview s = (s, "")) := by
  refine ⟨?_, ?_, ?_⟩
  · intro s h200 _ hnospace
    have hwin : nthRune s 128 = 128 := by rw [nthRune_eq_min, h200]; omega
    have hlast : lastIndexFunc (s.take 128) isSpace = -1 :=
      lastIndexFunc_all_false _ _ hnospace
    simp [truncatePreview, hwin, h200, hlast]
  · intro s h150 hsp hothers
    have hwin : nthRune s 128 = 128 := by rw [nthRune_eq_min, h150]; omega
    have htlen : (s.take 128).length = 128 := by rw [List.length_take, h150]; omega
    have hsp' : isSpace ((s.take 128).getD 100 'a') = true := by
      rw [getD_take s 128 100 'a' (by omega)]
      exact hsp
    have hothers' : ∀ j, j < (s.take 128).length → j ≠ 100 →
        isSpace ((s.take 128).getD j 'a') = false := by
      intro j hj hjk
      rw [htlen] at hj
      rw [getD_take s 128 j 'a' hj]
      exact hothers j (by omega) hjk
    have hlast : lastIndexFunc (s.take 128) isSpace = (100 : Int) :=
      lastIndexFunc_unique _ _ 100 (by omega) hsp' hothers'
    have h100 : ((100 : Int).toNat) = 100 := rfl
    have hmin : (s.take 128).take 100 = s.take 100 := by
      rw [List.take_take]
      have hm : min 100 128 = 100 := by omega
      rw [hm]
    simp [truncatePreview, hwin, h150, hlast, h100, hmin]
  · intro s h128
    have hwin : nthRune s 128 = s.length := by
      rw [nthRune_eq_min]
      exact Nat.min_eq_right h128
    simp [truncatePreview, hwin]

set_option maxRecDepth 20000 in
/-- C7, witness: the three kinds of body evaluated concretely. -/
theorem C7_truncation_spec_witness :
    truncatePreview (List.replicate 200 'a') = (List.replicate 128 'a', cutIndicator) ∧
    truncatePreview (List.replicate 100 'a' ++ ' ' :: List.replicate 49 'b') =
      (List.replicate 100 'a', cutIndicator) ∧
    truncatePreview (List.replicate 120 'a') = (List.replicate 120 'a', "") := by
  refine ⟨?_, ?_, ?_⟩
  · have h := C7_truncation_spec.1 (List.replicate 200 'a') (by decide) (by decide)
      (by decide)
    rw [h]
    decide
  · have h := C7_truncation_spec.2.1 (List.replicate 100 'a' ++ ' ' :: List.replicate 49 'b')
      (by decide) (by decide) (by decide)
    rw [h]
    decide
  · exact C7_truncation_spec.2.2 (List.replicate 120 'a') (by decide)

end BridgeBot
